import Mathlib

/-!
Shallow embedding of `axfr2route53.py` (truemark/axfr2route53).

The script's single entry point `AXFR2Route53.update_records` runs a linear
pipeline: parse a zone file, validate the hosted-zone id, fail on an empty
zone, resolve the requested record-type token through an `if/elif` allow-list,
aggregate matching records into an insertion-ordered dict keyed by canonical
fully-qualified name (skipping apex NS records), build UPSERT change
descriptors, fail if none, and submit them to Route 53 in chunks of 98.

We model the pipeline as a pure function from the parsed options and the
parsed zone to a trace of externally visible events (the zone-file read and
each batch submission) together with the outcome (`SystemExit` message or
success).  dnspython's record-class and record-type constants are opaque
values compared only for equality, so we represent them by their mnemonic
tokens ("IN", "A", "NS", ...).
-/

namespace Axfr

/-- The argparse options consumed by `update_records` (`parser_setup`,
lines 191-223).  `-f` and `-d` are modelled as strings (the claims under
study all concern invocations where a zone file is actually parsed);
`-z` keeps the explicit `is None` check of line 73. -/
structure Options where
  filename : String
  domain : String
  hostedzone : Option String
  recordtype : String
  comment : String
  deriving Repr, DecidableEq

/-- One rdataset of a zone node: a record class, a record type, a TTL and the
ordered list of rdata values (dnspython's `Rdataset`). -/
structure Rdataset where
  rdclass : String
  rdtype : String
  ttl : Nat
  rdatas : List String
  deriving Repr, DecidableEq

/-- One node of the parsed zone: its zone-relative owner name (the apex is
written "@") and its rdatasets. -/
structure Node where
  name : String
  rdatasets : List Rdataset
  deriving Repr, DecidableEq

/-- A parsed zone: the insertion-ordered sequence of `z.nodes.items()`. -/
structure Zone where
  nodes : List Node
  deriving Repr, DecidableEq

/-- dnspython's `node.get_rdataset(rdclass, rdtype)`: the node's rdataset
matching the given class and type, if any. -/
def Node.get_rdataset (n : Node) (rdclass rdtype : String) : Option Rdataset :=
  n.rdatasets.find? (fun r => r.rdclass == rdclass && r.rdtype == rdtype)

/-- The `if/elif` allow-list of lines 87-115 mapping the `-t` token to the
dnspython `(rdtype, rdclass)` constants; `none` models the `else` branch
that raises `SystemExit`. -/
def resolveType (t : String) : Option (String × String) :=
  if t = "A" then some ("A", "IN")
  else if t = "AAAA" then some ("AAAA", "IN")
  else if t = "CNAME" then some ("CNAME", "IN")
  else if t = "MX" then some ("MX", "IN")
  else if t = "NS" then some ("NS", "IN")
  else if t = "PTR" then some ("PTR", "IN")
  else if t = "SPF" then some ("SPF", "IN")
  else if t = "TXT" then some ("TXT", "IN")
  else if t = "SRV" then some ("SRV", "IN")
  else none

/-- One value group of the `adict` dictionary: the `{'records': [...], 'ttl': ...}`
entry built at lines 131-148.  The script stores the TTL as `str(rdataset.ttl)`
and reads it back with `int(...)`; this round trip is the identity on the
non-negative TTLs dnspython produces, so we keep it as a `Nat`. -/
structure Group where
  records : List String
  ttl : Nat
  deriving Repr, DecidableEq

/-- The `adict` dictionary: Python dicts preserve insertion order, so we model
it as an association list extended at the end on first sight of a key. -/
abbrev ADict := List (String × Group)

/-- The canonical fully-qualified name computed at lines 131-141:
`domain + "."` for the apex marker "@", otherwise `name + "." + domain + "."`. -/
def canonName (name domain : String) : String :=
  if name = "@" then domain ++ "." else name ++ "." ++ domain ++ "."

/-- The dict update of lines 133-139 / 142-148: append the value if the
canonical name is already a key, otherwise create a fresh entry carrying the
current rdataset's TTL. -/
def adictInsert (d : ADict) (key : String) (value : String) (ttl : Nat) : ADict :=
  if d.any (fun p => p.1 == key) then
    d.map (fun p => if p.1 == key then (p.1, { p.2 with records := p.2.records ++ [value] }) else p)
  else
    d ++ [(key, { records := [value], ttl := ttl })]

/-- The body of the `for name, node in z.nodes.items()` loop (lines 118-148):
fetch the rdataset matching the resolved class/type, skip the node if there is
none, and for each rdata either skip it (apex NS exclusion, lines 127-129) or
insert it under its canonical name. -/
def processNode (recordtype domain rdclassvar rdtypevar : String) (d : ADict) (node : Node) :
    ADict :=
  match node.get_rdataset rdclassvar rdtypevar with
  | none => d
  | some rdataset =>
    rdataset.rdatas.foldl
      (fun d rds =>
        if node.name = "@" ∧ recordtype = "NS" then d
        else adictInsert d (canonName node.name domain) rds rdataset.ttl)
      d

/-- The full record-aggregation pass of lines 117-148, starting from the empty
`adict` of line 77. -/
def aggregate (recordtype domain rdclassvar rdtypevar : String) (nodes : List Node) : ADict :=
  nodes.foldl (processNode recordtype domain rdclassvar rdtypevar) []

/-- One element of the `dns_changes` list (lines 150-162): an UPSERT change
descriptor with the nested `ResourceRecordSet` flattened into fields. -/
structure Change where
  action : String
  name : String
  type : String
  ttl : Nat
  resourceRecords : List String
  deriving Repr, DecidableEq

/-- The change-building loop of lines 150-162: one UPSERT descriptor per
`adict` entry, in dict order, values in list order. -/
def buildChanges (recordtype : String) (adict : ADict) : List Change :=
  adict.map (fun p =>
    { action := "UPSERT", name := p.1, type := recordtype,
      ttl := p.2.ttl, resourceRecords := p.2.records })

/-- The slicing comprehension of line 175,
`[dns_changes[x:x+98] for x in range(0, len(dns_changes), 98)]`:
Python's `range(0, n, 98)` enumerates the ⌈n/98⌉ start offsets
0, 98, 196, ..., which is `List.range' 0 ((n + 97) / 98) 98`. -/
def partition (l : List α) : List (List α) :=
  (List.range' 0 ((l.length + 97) / 98) 98).map (fun x => (l.drop x).take 98)

/-- The batching branch of lines 173-186: chunked submission when more than 98
changes, a single batch otherwise. -/
def batches (l : List α) : List (List α) :=
  if l.length > 98 then partition l else [l]

/-- Externally visible effects of a run: the zone-file parse of line 69 and
each `change_resource_record_sets` call of lines 179-181 / 184-186. -/
inductive Event where
  | zoneRead (filename : String)
  | submit (hostedzone : String) (changes : List Change)
  deriving Repr, DecidableEq

/-- The pipeline of `update_records` (lines 46-188) on a successfully parsed
zone, in source order: `dnszone.from_file` (line 69, always consulted first),
the hosted-zone check (line 73), the empty-zone check (line 81), the
record-type gate (lines 87-115) — note line 115 formats the message with a
placeholder-free string, so the token is dropped —, aggregation (lines
117-148), change building (lines 150-162), the no-matching-records check
(line 163), and batched submission (lines 171-188). -/
def updateRecords (opts : Options) (zone : Zone) : List Event × Except String Unit :=
  match opts.hostedzone with
  | none => ([.zoneRead opts.filename], .error "No Hosted Zone ID provided. Try again with -z.")
  | some hz =>
    if zone.nodes.length = 0 then
      ([.zoneRead opts.filename], .error "No records found to process.\n")
    else
      match resolveType opts.recordtype with
      | none =>
        ([.zoneRead opts.filename], .error "Unknown or unsupported record type in Route 53: ")
      | some (rdtypevar, rdclassvar) =>
        let adict := aggregate opts.recordtype opts.domain rdclassvar rdtypevar zone.nodes
        let dns_changes := buildChanges opts.recordtype adict
        if dns_changes.length = 0 then
          ([.zoneRead opts.filename], .error ("No " ++ opts.recordtype ++ " records found."))
        else
          ([.zoneRead opts.filename] ++ (batches dns_changes).map (Event.submit hz), .ok ())

/-! ### Lemmas about the batching step -/

theorem partition_nil : partition ([] : List α) = [] := by
  simp [partition]

theorem partition_cons (l : List α) (h : l ≠ []) :
    partition l = l.take 98 :: partition (l.drop 98) := by
  have hpos : 0 < l.length := List.length_pos.mpr h
  have h1 : (l.length + 97) / 98 = ((l.drop 98).length + 97) / 98 + 1 := by
    rw [List.length_drop]; omega
  unfold partition
  rw [h1, List.range'_succ, List.map_cons, List.drop_zero]
  congr 1
  have h2 : List.range' (0 + 98) (((l.drop 98).length + 97) / 98) 98
      = List.map (fun x => 98 + x) (List.range' 0 (((l.drop 98).length + 97) / 98) 98) := by
    rw [List.map_add_range']
  rw [h2, List.map_map]
  apply List.map_congr_left
  intro x hx
  simp [Function.comp, List.drop_drop]

theorem partition_flatten (l : List α) : (partition l).flatten = l := by
  have key : ∀ (n : Nat) (l : List α), l.length ≤ n → (partition l).flatten = l := by
    intro n
    induction n with
    | zero =>
      intro l hl
      have hnil : l = [] := List.eq_nil_of_length_eq_zero (Nat.le_zero.mp hl)
      subst hnil
      simp [partition_nil]
    | succ n ih =>
      intro l hl
      rcases eq_or_ne l [] with rfl | h
      · simp [partition_nil]
      · rw [partition_cons l h, List.flatten_cons, ih (l.drop 98) ?_, List.take_append_drop]
        rw [List.length_drop]
        have hpos : 0 < l.length := List.length_pos.mpr h
        omega
  exact key l.length l (Nat.le_refl _)

theorem partition_length (l : List α) : (partition l).length = (l.length + 97) / 98 := by
  simp [partition]

theorem mem_partition {l b : List α} (hb : b ∈ partition l) :
    b.length ≤ 98 ∧ b ≠ [] := by
  unfold partition at hb
  rw [List.mem_map] at hb
  obtain ⟨x, hx, rfl⟩ := hb
  rw [List.mem_range'] at hx
  obtain ⟨i, hi, rfl⟩ := hx
  have hxl : 98 * i < l.length := by omega
  constructor
  · rw [List.length_take]; omega
  · have hlen : ((l.drop (0 + 98 * i)).take 98).length ≠ 0 := by
      rw [List.length_take, List.length_drop]; omega
    exact fun hcon => hlen (by rw [hcon]; rfl)

/-- C1: for every non-empty change list of length N, the batching step of
lines 173-186 yields ⌈N/98⌉ batches, each a non-empty contiguous chunk of at
most 98 changes, whose in-order concatenation is the original list; this
covers both the chunked path (N > 98) and the single-batch path (N ≤ 98). -/
theorem claim_C1 (l : List Change) (h : l ≠ []) :
    (batches l).length = (l.length + 97) / 98 ∧
    (∀ b ∈ batches l, b.length ≤ 98 ∧ b ≠ []) ∧
    (batches l).flatten = l := by
  unfold batches
  by_cases hgt : l.length > 98
  · rw [if_pos hgt]
    exact ⟨partition_length l, fun b hb => mem_partition hb, partition_flatten l⟩
  · rw [if_neg hgt]
    have hpos : 0 < l.length := List.length_pos.mpr h
    refine ⟨?_, ?_, by simp⟩
    · simp only [List.length_singleton]
      omega
    · intro b hb
      rw [List.mem_singleton] at hb
      subst hb
      exact ⟨by omega, h⟩

/-- A concrete change descriptor used by the closed witnesses below. -/
def demoChange : Change :=
  { action := "UPSERT", name := "www.example.com.", type := "A",
    ttl := 300, resourceRecords := ["10.0.0.1"] }

/-- Witness for C1 at a concrete 99-element change list (chunked path). -/
theorem claim_C1_witness :
    (batches (List.replicate 99 demoChange)).length
        = ((List.replicate 99 demoChange).length + 97) / 98 ∧
    (∀ b ∈ batches (List.replicate 99 demoChange), b.length ≤ 98 ∧ b ≠ []) ∧
    (batches (List.replicate 99 demoChange)).flatten = List.replicate 99 demoChange :=
  claim_C1 (List.replicate 99 demoChange) (by simp)

/-! ### Lemmas about the aggregation pass -/

theorem keys_adictInsert {d : ADict} {k v : String} {t : Nat} {x : String}
    (hx : x ∈ (adictInsert d k v t).map Prod.fst) :
    x = k ∨ x ∈ d.map Prod.fst := by
  unfold adictInsert at hx
  split at hx
  · right
    rw [List.map_map] at hx
    rw [List.mem_map] at hx ⊢
    obtain ⟨p, hp, hpx⟩ := hx
    refine ⟨p, hp, ?_⟩
    simp only [Function.comp] at hpx
    split at hpx <;> simpa using hpx
  · rw [List.map_append, List.mem_append] at hx
    rcases hx with hx | hx
    · exact Or.inr hx
    · left
      simpa using hx

theorem keys_foldInsert (cond : Prop) [Decidable cond] (key : String) (ttl : Nat) :
    ∀ (values : List String) (d : ADict) (x : String),
      x ∈ (values.foldl
            (fun d rds => if cond then d else adictInsert d key rds ttl) d).map Prod.fst →
      x ∈ d.map Prod.fst ∨ (¬cond ∧ x = key)
  | [], _, _, hx => Or.inl hx
  | v :: vs, d, x, hx => by
    rcases keys_foldInsert cond key ttl vs _ x hx with h | h
    · by_cases hc : cond
      · simp only [if_pos hc] at h
        exact Or.inl h
      · simp only [if_neg hc] at h
        rcases keys_adictInsert h with rfl | h
        · exact Or.inr ⟨hc, rfl⟩
        · exact Or.inl h
    · exact Or.inr h

theorem keys_processNode {rt dom rdc rdt : String} {d : ADict} {node : Node} {x : String}
    (hx : x ∈ (processNode rt dom rdc rdt d node).map Prod.fst) :
    x ∈ d.map Prod.fst ∨ (¬(node.name = "@" ∧ rt = "NS") ∧ x = canonName node.name dom) := by
  unfold processNode at hx
  split at hx
  · exact Or.inl hx
  · exact keys_foldInsert _ _ _ _ _ _ hx

theorem keys_aggregate_aux {rt dom rdc rdt : String} :
    ∀ (nodes : List Node) (d : ADict) (x : String),
      x ∈ (nodes.foldl (processNode rt dom rdc rdt) d).map Prod.fst →
      x ∈ d.map Prod.fst ∨
        ∃ node ∈ nodes, ¬(node.name = "@" ∧ rt = "NS") ∧ x = canonName node.name dom
  | [], _, _, hx => Or.inl hx
  | n :: ns, d, x, hx => by
    rcases keys_aggregate_aux ns _ x hx with h | ⟨node, hn, hcond, heq⟩
    · rcases keys_processNode h with h | ⟨hcond, heq⟩
      · exact Or.inl h
      · exact Or.inr ⟨n, List.mem_cons_self n ns, hcond, heq⟩
    · exact Or.inr ⟨node, List.mem_cons_of_mem n hn, hcond, heq⟩

/-- C3: when the requested type is NS, no group keyed by the zone apex name
`domain ++ "."` ever appears in the aggregated dict, however many NS records
exist elsewhere in the zone — the apex-NS skip of lines 127-129 drops apex
records, and every other record's canonical name has strictly greater length
than the apex name. -/
theorem claim_C3 (domain rdc rdt : String) (nodes : List Node) (p : String × Group)
    (hp : p ∈ aggregate "NS" domain rdc rdt nodes) :
    p.1 ≠ domain ++ "." := by
  intro hcon
  have hx : p.1 ∈ (aggregate "NS" domain rdc rdt nodes).map Prod.fst :=
    List.mem_map_of_mem Prod.fst hp
  rcases keys_aggregate_aux nodes [] p.1 hx with h | ⟨node, _, hcond, heq⟩
  · simp at h
  · have hname : node.name ≠ "@" := fun he => hcond ⟨he, rfl⟩
    rw [canonName, if_neg hname] at heq
    have hlen : (node.name ++ "." ++ domain ++ ".").length = (domain ++ ".").length := by
      rw [← heq, hcon]
    have hdot : (".").length = 1 := rfl
    simp only [String.length_append, hdot] at hlen
    omega

/-- A one-node zone holding a non-apex NS record, used to witness C3. -/
def nsDemoNodes : List Node :=
  [⟨"sub", [⟨"IN", "NS", 3600, ["ns1.example."]⟩]⟩]

/-- Witness for C3: the non-apex NS group produced from `nsDemoNodes` is a
member of the aggregate and its key differs from the apex name. -/
theorem claim_C3_witness :
    ("sub.example.com.", ({ records := ["ns1.example."], ttl := 3600 } : Group))
        ∈ aggregate "NS" "example.com" "IN" "NS" nsDemoNodes ∧
    ("sub.example.com.",
        ({ records := ["ns1.example."], ttl := 3600 } : Group)).1 ≠ "example.com" ++ "." :=
  ⟨by decide, claim_C3 "example.com" "IN" "NS" nsDemoNodes _ (by decide)⟩

/-- The spec's scenario zone: an apex NS record with TTL 3600 and two A
records at "www" with TTL 300. -/
def scenarioNodes : List Node :=
  [ ⟨"@", [⟨"IN", "NS", 3600, ["ns1.example."]⟩]⟩,
    ⟨"www", [⟨"IN", "A", 300, ["10.0.0.1", "10.0.0.2"]⟩]⟩ ]

/-- C5: every group key produced by aggregation is the canonical
fully-qualified name of some input node — `domain ++ "."` when the
zone-relative name is the apex marker "@", `name ++ "." ++ domain ++ "."`
otherwise — and on the spec's scenario zone with domain "example.com" and
requested type A the output is exactly one group for "www.example.com." with
TTL 300 and values ["10.0.0.1", "10.0.0.2"] in order. -/
theorem claim_C5 :
    (∀ (rt dom rdc rdt : String) (nodes : List Node) (x : String),
        x ∈ (aggregate rt dom rdc rdt nodes).map Prod.fst →
        ∃ node ∈ nodes,
          x = if node.name = "@" then dom ++ "." else node.name ++ "." ++ dom ++ ".") ∧
    aggregate "A" "example.com" "IN" "A" scenarioNodes
      = [("www.example.com.", { records := ["10.0.0.1", "10.0.0.2"], ttl := 300 })] := by
  constructor
  · intro rt dom rdc rdt nodes x hx
    rcases keys_aggregate_aux nodes [] x hx with h | ⟨node, hn, _, heq⟩
    · simp at h
    · exact ⟨node, hn, by rw [heq]; rfl⟩
  · rfl

/-- Witness for C5: its universally quantified part applied to the scenario
zone's sole output key. -/
theorem claim_C5_witness :
    ∃ node ∈ scenarioNodes,
      "www.example.com."
        = if node.name = "@" then "example.com" ++ "."
          else node.name ++ "." ++ "example.com" ++ "." :=
  claim_C5.1 "A" "example.com" "IN" "A" scenarioNodes "www.example.com." (by decide)

/-! ### First-seen TTL preservation -/

/-- Relation between an adict entry and a later version of it: same key, same
TTL, records only extended on the right. -/
def entryKept (p p' : String × Group) : Prop :=
  p'.1 = p.1 ∧ p'.2.ttl = p.2.ttl ∧ ∃ e, p'.2.records = p.2.records ++ e

theorem entryKept_refl (p : String × Group) : entryKept p p :=
  ⟨rfl, rfl, [], by simp⟩

theorem entryKept_trans {p q r : String × Group} (h1 : entryKept p q) (h2 : entryKept q r) :
    entryKept p r := by
  obtain ⟨hk1, ht1, e1, he1⟩ := h1
  obtain ⟨hk2, ht2, e2, he2⟩ := h2
  exact ⟨hk2.trans hk1, ht2.trans ht1, e1 ++ e2, by rw [he2, he1, List.append_assoc]⟩

theorem find?_key_cons (q : String × Group) (d : ADict) (k : String) :
    List.find? (fun x => x.1 == k) (q :: d)
      = if (q.1 == k) = true then some q else List.find? (fun x => x.1 == k) d := by
  by_cases hq : (q.1 == k) = true
  · rw [if_pos hq]
    exact List.find?_cons_of_pos (p := fun x => x.1 == k) d hq
  · rw [if_neg hq]
    exact List.find?_cons_of_neg (p := fun x => x.1 == k) d hq

theorem find?_map_entryKept (k : String) (f : String × Group → String × Group)
    (hf : ∀ q, entryKept q (f q)) :
    ∀ (d : ADict) (p : String × Group), d.find? (fun q => q.1 == k) = some p →
      ∃ p', (d.map f).find? (fun q => q.1 == k) = some p' ∧ entryKept p p'
  | [], p, hp => by simp at hp
  | q :: d, p, hp => by
    rw [find?_key_cons q d k] at hp
    rw [List.map_cons, find?_key_cons (f q) (d.map f) k, (hf q).1]
    by_cases hq : (q.1 == k) = true
    · rw [if_pos hq] at hp
      rw [if_pos hq]
      injection hp with hqp
      subst hqp
      exact ⟨f q, rfl, hf q⟩
    · rw [if_neg hq] at hp
      rw [if_neg hq]
      exact find?_map_entryKept k f hf d p hp

theorem find?_adictInsert_entryKept {d : ADict} {k' v : String} {t : Nat} (k : String)
    {p : String × Group} (hp : d.find? (fun q => q.1 == k) = some p) :
    ∃ p', (adictInsert d k' v t).find? (fun q => q.1 == k) = some p' ∧ entryKept p p' := by
  unfold adictInsert
  split
  · refine find?_map_entryKept k _ (fun q => ?_) d p hp
    by_cases hq : (q.1 == k') = true
    · simp only [if_pos hq]
      exact ⟨rfl, rfl, [v], rfl⟩
    · simp only [if_neg hq]
      exact entryKept_refl q
  · refine ⟨p, ?_, entryKept_refl p⟩
    rw [List.find?_append, hp]
    rfl

theorem find?_foldInsert_entryKept (cond : Prop) [Decidable cond] (key : String) (ttl : Nat)
    (k : String) :
    ∀ (values : List String) (d : ADict) (p : String × Group),
      d.find? (fun q => q.1 == k) = some p →
      ∃ p', ((values.foldl (fun d rds => if cond then d else adictInsert d key rds ttl) d).find?
              (fun q => q.1 == k)) = some p' ∧ entryKept p p'
  | [], _, p, hp => ⟨p, hp, entryKept_refl p⟩
  | v :: vs, d, p, hp => by
    have hstep : ∃ p₁, ((if cond then d else adictInsert d key v ttl).find?
        (fun q => q.1 == k)) = some p₁ ∧ entryKept p p₁ := by
      by_cases hc : cond
      · rw [if_pos hc]
        exact ⟨p, hp, entryKept_refl p⟩
      · rw [if_neg hc]
        exact find?_adictInsert_entryKept k hp
    obtain ⟨p₁, hp₁, hkept₁⟩ := hstep
    obtain ⟨p', hp', hkept'⟩ := find?_foldInsert_entryKept cond key ttl k vs _ p₁ hp₁
    refine ⟨p', ?_, entryKept_trans hkept₁ hkept'⟩
    rw [List.foldl_cons]
    exact hp'

theorem find?_processNode_entryKept {rt dom rdc rdt : String} (k : String) (node : Node)
    {d : ADict} {p : String × Group} (hp : d.find? (fun q => q.1 == k) = some p) :
    ∃ p', (processNode rt dom rdc rdt d node).find? (fun q => q.1 == k) = some p'
      ∧ entryKept p p' := by
  unfold processNode
  split
  · exact ⟨p, hp, entryKept_refl p⟩
  · exact find?_foldInsert_entryKept _ _ _ k _ d p hp

theorem find?_foldNodes_entryKept {rt dom rdc rdt : String} (k : String) :
    ∀ (nodes : List Node) (d : ADict) (p : String × Group),
      d.find? (fun q => q.1 == k) = some p →
      ∃ p', ((nodes.foldl (processNode rt dom rdc rdt) d).find? (fun q => q.1 == k)) = some p'
        ∧ entryKept p p'
  | [], _, p, hp => ⟨p, hp, entryKept_refl p⟩
  | n :: ns, d, p, hp => by
    obtain ⟨p₁, hp₁, h₁⟩ := find?_processNode_entryKept k n hp
    obtain ⟨p', hp', h'⟩ := find?_foldNodes_entryKept k ns _ p₁ hp₁
    refine ⟨p', ?_, entryKept_trans h₁ h'⟩
    rw [List.foldl_cons]
    exact hp'

/-- C6: once aggregation of a zone prefix has created the group at some
canonical name (carrying the first-seen record's TTL), aggregating the rest
of the zone never changes that group's TTL — later records for the same
canonical name only append their values to the group's record list
(lines 133-135 / 142-144 never touch the stored ttl). -/
theorem claim_C6 (rt dom rdc rdt : String) (pre rest : List Node) (k : String)
    (p : String × Group)
    (hp : (aggregate rt dom rdc rdt pre).find? (fun q => q.1 == k) = some p) :
    ∃ p', (aggregate rt dom rdc rdt (pre ++ rest)).find? (fun q => q.1 == k) = some p'
      ∧ p'.2.ttl = p.2.ttl ∧ ∃ e, p'.2.records = p.2.records ++ e := by
  have hsplit : aggregate rt dom rdc rdt (pre ++ rest)
      = rest.foldl (processNode rt dom rdc rdt) (aggregate rt dom rdc rdt pre) := by
    unfold aggregate
    rw [List.foldl_append]
  rw [hsplit]
  obtain ⟨p', hp', hk⟩ := find?_foldNodes_entryKept k rest _ p hp
  exact ⟨p', hp', hk.2.1, hk.2.2⟩

/-- Zone prefix for the C6 witness: one A record at "www" with TTL 300. -/
def ttlPreNodes : List Node :=
  [⟨"www", [⟨"IN", "A", 300, ["10.0.0.1"]⟩]⟩]

/-- Zone remainder for the C6 witness: a second record for the same canonical
name carrying a different TTL (600). -/
def ttlRestNodes : List Node :=
  [⟨"www", [⟨"IN", "A", 600, ["10.0.0.2"]⟩]⟩]

/-- Witness for C6: after a second "www" record with TTL 600 is processed, the
group keeps the first-seen TTL 300 and only its value list grows. -/
theorem claim_C6_witness :
    ∃ p', (aggregate "A" "example.com" "IN" "A" (ttlPreNodes ++ ttlRestNodes)).find?
            (fun q => q.1 == "www.example.com.") = some p'
      ∧ p'.2.ttl = ("www.example.com.",
            ({ records := ["10.0.0.1"], ttl := 300 } : Group)).2.ttl
      ∧ ∃ e, p'.2.records = ("www.example.com.",
            ({ records := ["10.0.0.1"], ttl := 300 } : Group)).2.records ++ e :=
  claim_C6 "A" "example.com" "IN" "A" ttlPreNodes ttlRestNodes "www.example.com."
    ("www.example.com.", { records := ["10.0.0.1"], ttl := 300 }) (by decide)

/-! ### Pipeline claims -/

/-- An invocation requesting the unsupported type "SOA" on a parsable zone
file, options otherwise valid (defaults of `parser_setup`). -/
def soaOpts : Options :=
  { filename := "db.example", domain := "example.com", hostedzone := some "Z1234567891011",
    recordtype := "SOA", comment := "Managed by AXFR2Route53.py" }

/-- The scenario zone wrapped as a parsed zone. -/
def demoZone : Zone := ⟨scenarioNodes⟩

/-- Counterexample to C2 as stated: with the invalid record type "SOA" the
run still consults the zone source — the trace of the run contains the
zone-file read (in the source, `dnszone.from_file` at line 69 runs before the
type gate at lines 87-115), even though the run then fails with the
unsupported-type error. -/
theorem claim_C2_counterexample :
    resolveType "SOA" = none ∧
    Event.zoneRead "db.example" ∈ (updateRecords soaOpts demoZone).1 ∧
    (updateRecords soaOpts demoZone).2
      = Except.error "Unknown or unsupported record type in Route 53: " := by
  refine ⟨rfl, ?_, rfl⟩
  decide

/-- C2 (amended): with a record-type token outside the allow-list, the run
fails with the unsupported-type error after the zone file has been parsed
(the zone source is always consulted first, and on an empty zone the
empty-source error takes precedence), but before any record is grouped and
before any batch is submitted — the trace holds the zone read and nothing
else. -/
theorem claim_C2 (opts : Options) (zone : Zone) (hz : String)
    (h1 : opts.hostedzone = some hz) (h2 : zone.nodes ≠ [])
    (h3 : resolveType opts.recordtype = none) :
    updateRecords opts zone
      = ([Event.zoneRead opts.filename],
          Except.error "Unknown or unsupported record type in Route 53: ") := by
  obtain ⟨fn, dm, hzo, rt, cm⟩ := opts
  obtain ⟨ns⟩ := zone
  subst h1
  have hlen : ¬ (ns.length = 0) := fun h => h2 (List.length_eq_zero.mp h)
  simp only [updateRecords, if_neg hlen]
  rw [h3]

/-- Witness for C2 (amended) at the concrete "SOA" invocation. -/
theorem claim_C2_witness :
    updateRecords soaOpts demoZone
      = ([Event.zoneRead soaOpts.filename],
          Except.error "Unknown or unsupported record type in Route 53: ") :=
  claim_C2 soaOpts demoZone "Z1234567891011" rfl (by decide) rfl

/-- Bool test: does the first character list lead the second? -/
def charsLead : List Char → List Char → Bool
  | [], _ => true
  | _ :: _, [] => false
  | a :: as, b :: bs => a == b && charsLead as bs

/-- Bool test: does `needle` occur contiguously anywhere inside `hay`? -/
def occursIn (needle : List Char) : List Char → Bool
  | [] => charsLead needle []
  | c :: rest => charsLead needle (c :: rest) || occursIn needle rest

/-- Bool test: does string `needle` occur as a substring of `hay`? -/
def strOccurs (needle hay : String) : Bool :=
  occursIn needle.data hay.data

/-- C4 evaluated at the failing input: requesting type "SOA" exits with the
message produced by line 115, `"Unknown or unsupported record type in
Route 53: ".format(_recordtype)` — the format string has no placeholder, so
the offending token "SOA" is dropped and does not occur in the message,
contrary to the claim. -/
theorem claim_C4 :
    (updateRecords soaOpts demoZone).2
        = Except.error "Unknown or unsupported record type in Route 53: " ∧
    strOccurs "SOA" "Unknown or unsupported record type in Route 53: " = false :=
  ⟨rfl, by decide⟩

/-- C7: a zone source yielding zero records makes the run fail with the
empty-source error of line 81-82, before the type gate, before any grouping,
and with no batch submitted (the trace holds only the zone read); the run
never returns successfully with an empty group list. -/
theorem claim_C7 (opts : Options) (zone : Zone) (hz : String)
    (h1 : opts.hostedzone = some hz) (h2 : zone.nodes = []) :
    updateRecords opts zone
      = ([Event.zoneRead opts.filename], Except.error "No records found to process.\n") := by
  obtain ⟨fn, dm, hzo, rt, cm⟩ := opts
  obtain ⟨ns⟩ := zone
  subst h1
  subst h2
  rfl

/-- Witness for C7 at a concrete empty zone. -/
theorem claim_C7_witness :
    updateRecords soaOpts ⟨[]⟩
      = ([Event.zoneRead soaOpts.filename], Except.error "No records found to process.\n") :=
  claim_C7 soaOpts ⟨[]⟩ "Z1234567891011" rfl rfl

/-- C8: when the zone yields records but filtering plus the apex-NS exclusion
leave zero groups, the run fails with the no-matching-records error of lines
163-164, whose message names the requested type, and no batch is ever
submitted (the trace holds only the zone read). -/
theorem claim_C8 (opts : Options) (zone : Zone) (hz rdt rdc : String)
    (h1 : opts.hostedzone = some hz) (h2 : zone.nodes ≠ [])
    (h3 : resolveType opts.recordtype = some (rdt, rdc))
    (h4 : aggregate opts.recordtype opts.domain rdc rdt zone.nodes = []) :
    updateRecords opts zone
      = ([Event.zoneRead opts.filename],
          Except.error ("No " ++ opts.recordtype ++ " records found.")) := by
  obtain ⟨fn, dm, hzo, rt, cm⟩ := opts
  obtain ⟨ns⟩ := zone
  subst h1
  have hlen : ¬ (ns.length = 0) := fun h => h2 (List.length_eq_zero.mp h)
  simp only [updateRecords, if_neg hlen]
  rw [h3]
  simp only [h4, buildChanges, List.map_nil, List.length_nil, if_pos rfl]
  exact if_pos trivial

/-- A zone holding only an apex NS record (the spec's second scenario). -/
def apexOnlyZone : Zone := ⟨[⟨"@", [⟨"IN", "NS", 3600, ["ns1.example."]⟩]⟩]⟩

/-- An invocation requesting type NS with otherwise valid options. -/
def nsOpts : Options :=
  { filename := "db.example", domain := "example.com", hostedzone := some "Z1234567891011",
    recordtype := "NS", comment := "Managed by AXFR2Route53.py" }

/-- Witness for C8: requesting NS on a zone holding only the apex NS record
fails with "No NS records found." and submits nothing. -/
theorem claim_C8_witness :
    updateRecords nsOpts apexOnlyZone
      = ([Event.zoneRead nsOpts.filename],
          Except.error ("No " ++ nsOpts.recordtype ++ " records found.")) :=
  claim_C8 nsOpts apexOnlyZone "Z1234567891011" "NS" "IN" rfl (by decide) rfl (by decide)

/-- C10: two invocations that differ only in the `-c` record-comment option
produce identical traces (hence identical change lists and submitted batches)
and identical outcomes — `update_records` never reads `options.comment`. -/
theorem claim_C10 (fn dm : String) (hzo : Option String) (rt c1 c2 : String) (zone : Zone) :
    updateRecords ⟨fn, dm, hzo, rt, c1⟩ zone = updateRecords ⟨fn, dm, hzo, rt, c2⟩ zone := rfl

/-! ### Deterministic first-seen emission order -/

/-- The records of one node that survive filtering and the apex-NS skip, as
(canonical name, ttl, value) triples in source order. -/
def nodeSurvivors (rt dom rdc rdt : String) (node : Node) : List (String × Nat × String) :=
  match node.get_rdataset rdc rdt with
  | none => []
  | some rdataset =>
    rdataset.rdatas.filterMap fun rds =>
      if node.name = "@" ∧ rt = "NS" then none
      else some (canonName node.name dom, rdataset.ttl, rds)

/-- All surviving records of the zone, in source order. -/
def survivors (rt dom rdc rdt : String) (nodes : List Node) : List (String × Nat × String) :=
  (nodes.map (nodeSurvivors rt dom rdc rdt)).flatten

/-- Append a key at the end unless it is already present — the key order a
Python dict exposes. -/
def insertKeyOnce (ks : List String) (k : String) : List String :=
  if ks.contains k then ks else ks ++ [k]

/-- First-seen deduplication of a key sequence. -/
def firstSeen (l : List String) : List String :=
  l.foldl insertKeyOnce []

theorem any_key_eq_contains (d : ADict) (k : String) :
    d.any (fun p => p.1 == k) = (d.map Prod.fst).contains k := by
  induction d with
  | nil => rfl
  | cons q d ih =>
    by_cases hqk : q.1 = k
    · subst hqk
      simp [List.any_cons, List.contains_cons]
    · have h1 : (q.1 == k) = false := beq_eq_false_iff_ne.mpr hqk
      have h2 : (k == q.1) = false := beq_eq_false_iff_ne.mpr (Ne.symm hqk)
      simp [List.any_cons, List.contains_cons, h1, h2, ih]

theorem keys_adictInsert_eq (d : ADict) (k v : String) (t : Nat) :
    (adictInsert d k v t).map Prod.fst = insertKeyOnce (d.map Prod.fst) k := by
  by_cases hg : d.any (fun p => p.1 == k) = true
  · rw [adictInsert, if_pos hg, insertKeyOnce,
      if_pos (by rw [← any_key_eq_contains]; exact hg), List.map_map]
    apply List.map_congr_left
    intro q _
    simp only [Function.comp]
    split <;> rfl
  · rw [adictInsert, if_neg hg, insertKeyOnce,
      if_neg (by rw [← any_key_eq_contains]; exact hg)]
    simp

theorem inner_fold_skip (cond : Prop) [Decidable cond] (key : String) (ttl : Nat)
    (hc : cond) :
    ∀ (values : List String) (d : ADict),
      values.foldl (fun d rds => if cond then d else adictInsert d key rds ttl) d = d
  | [], _ => rfl
  | v :: vs, d => by
    rw [List.foldl_cons, if_pos hc]
    exact inner_fold_skip cond key ttl hc vs d

theorem keys_inner_fold (key : String) (ttl : Nat) :
    ∀ (values : List String) (d : ADict),
      ((values.foldl (fun d rds => adictInsert d key rds ttl) d).map Prod.fst)
        = (values.map (fun _ => key)).foldl insertKeyOnce (d.map Prod.fst)
  | [], _ => rfl
  | v :: vs, d => by
    rw [List.foldl_cons, List.map_cons, List.foldl_cons, keys_inner_fold key ttl vs _,
      keys_adictInsert_eq]

theorem filterMap_keys (c : String) (t : Nat) :
    ∀ (vs : List String),
      ((vs.filterMap (fun rds => some (c, t, rds))).map Prod.fst) = vs.map (fun _ => c)
  | [] => rfl
  | v :: vs => by
    simp [List.filterMap_cons, filterMap_keys c t vs]

theorem keys_processNode_eq (rt dom rdc rdt : String) (d : ADict) (node : Node) :
    (processNode rt dom rdc rdt d node).map Prod.fst
      = ((nodeSurvivors rt dom rdc rdt node).map Prod.fst).foldl
          insertKeyOnce (d.map Prod.fst) := by
  unfold processNode nodeSurvivors
  split
  · rfl
  · by_cases hc : node.name = "@" ∧ rt = "NS"
    · rw [inner_fold_skip _ _ _ hc]
      simp only [if_pos hc]
      rw [List.filterMap_eq_nil_iff.mpr (fun a _ => rfl)]
      rfl
    · simp only [if_neg hc]
      rw [filterMap_keys, keys_inner_fold]

theorem keys_aggregate_eq (rt dom rdc rdt : String) :
    ∀ (nodes : List Node) (d : ADict),
      ((nodes.foldl (processNode rt dom rdc rdt) d).map Prod.fst)
        = ((survivors rt dom rdc rdt nodes).map Prod.fst).foldl
            insertKeyOnce (d.map Prod.fst)
  | [], _ => rfl
  | n :: ns, d => by
    rw [List.foldl_cons, keys_aggregate_eq rt dom rdc rdt ns _, keys_processNode_eq]
    have hs : survivors rt dom rdc rdt (n :: ns)
        = nodeSurvivors rt dom rdc rdt n ++ survivors rt dom rdc rdt ns := by
      unfold survivors
      rw [List.map_cons, List.flatten_cons]
    rw [hs, List.map_append, List.foldl_append]

/-- C9: rerunning aggregation plus change building on the same input yields
the identical change sequence (the pipeline is a pure function of the parsed
zone, the domain and the requested type — it consults no other state), and
the emitted group order is exactly the first-seen order of the surviving
records' canonical names, so the order is reproducible from the input
sequence alone. -/
theorem claim_C9 (rt dom rdc rdt : String) (nodes : List Node) :
    buildChanges rt (aggregate rt dom rdc rdt nodes)
        = buildChanges rt (aggregate rt dom rdc rdt nodes) ∧
    (aggregate rt dom rdc rdt nodes).map Prod.fst
        = firstSeen ((survivors rt dom rdc rdt nodes).map Prod.fst) := by
  refine ⟨rfl, ?_⟩
  unfold aggregate firstSeen
  exact keys_aggregate_eq rt dom rdc rdt nodes []

end Axfr
